import Mathlib

/-!
Verification development for the behavesite HTTP request logger
(`src/index.js`): an Express app that logs HTTP requests, client-submitted
events and WebSocket fingerprint messages into a SQLite table `logs`, and
serves a query/purge API over that table.

The embedding models:
 * JSON values and `JSON.stringify` (the server serializes headers/bodies);
 * the `logs` table (`CREATE TABLE` at src/index.js:34-45) as a list of
   records plus the AUTOINCREMENT counter;
 * the four server-side operations: `GET /api/logs` (src/index.js:1105-1134),
   `POST /api/logs` (src/index.js:1137-1152), `DELETE /api/logs`
   (src/index.js:1155-1165) and the WebSocket message handler
   (src/index.js:1168-1191).
-/

/-- JSON values, as produced by `JSON.parse` on the wire and consumed by
`JSON.stringify`. Numbers are modelled as integers (every number the claims
touch is an integer); object keys are unique in any value produced by
`JSON.parse` (later duplicates overwrite earlier ones in JS). -/
inductive Json where
  | null : Json
  | bool : Bool → Json
  | num : Int → Json
  | str : String → Json
  | arr : List Json → Json
  | obj : List (String × Json) → Json

/-- Escaping of one character inside a JSON string literal, as
`JSON.stringify` does it (quote, backslash and the common control
characters; other characters pass through unchanged). -/
def jsonEscapeChar (c : Char) : String :=
  if c = '"' then "\\\""
  else if c = '\\' then "\\\\"
  else if c = '\n' then "\\n"
  else if c = '\r' then "\\r"
  else if c = '\t' then "\\t"
  else String.singleton c

/-- Escaping of a JSON string body, character by character. -/
def jsonEscape (s : String) : String :=
  String.join (s.data.map jsonEscapeChar)

mutual

/-- Model of `JSON.stringify`: renders a JSON value to its serialized text.
Object keys keep their insertion order, as in JS. -/
def Json.render : Json → String
  | .null => "null"
  | .bool true => "true"
  | .bool false => "false"
  | .num n => toString n
  | .str s => "\"" ++ jsonEscape s ++ "\""
  | .arr xs => "[" ++ Json.renderArr xs ++ "]"
  | .obj kvs => "\x7b" ++ Json.renderObj kvs ++ "\x7d"

/-- Comma-separated rendering of the elements of a JSON array. -/
def Json.renderArr : List Json → String
  | [] => ""
  | [x] => Json.render x
  | x :: y :: xs => Json.render x ++ "," ++ Json.renderArr (y :: xs)

/-- Comma-separated rendering of the key/value pairs of a JSON object. -/
def Json.renderObj : List (String × Json) → String
  | [] => ""
  | [(k, v)] => "\"" ++ jsonEscape k ++ "\":" ++ Json.render v
  | (k, v) :: y :: xs =>
      "\"" ++ jsonEscape k ++ "\":" ++ Json.render v ++ "," ++ Json.renderObj (y :: xs)

end

/-- JS property lookup on an object's field list: the value at key `k`, or
`none` when the property is absent (JS `undefined`). -/
def jsLookup (k : String) (fields : List (String × Json)) : Option Json :=
  (fields.find? (fun kv => kv.1 = k)).map (fun kv => kv.2)

/-- The field list of a JSON object (empty for non-objects); used to state
which keys a response body carries. -/
def Json.fieldsOf : Json → List (String × Json)
  | Json.obj kvs => kvs
  | _ => []

/-- One row of the `logs` table (src/index.js:34-45): `id INTEGER PRIMARY KEY
AUTOINCREMENT, method TEXT, url TEXT, headers TEXT, body TEXT, timestamp
TEXT`. `url` is the raw bound value — `none` models a NULL column (the JS
code can bind `undefined` there, e.g. a fingerprint without `origin`). -/
structure LogRecord where
  id : Nat
  method : String
  url : Option Json
  headers : String
  body : String
  timestamp : String

/-- The column values an `INSERT INTO logs(method,url,headers,body,timestamp)`
supplies; the store assigns `id`. -/
structure PendingRecord where
  method : String
  url : Option Json
  headers : String
  body : String
  timestamp : String

/-- The `logs` table: rows in insertion order plus the AUTOINCREMENT
counter (SQLite hands out `nextId` to the next insert and never reuses a
value, even across deletes). -/
structure Store where
  nextId : Nat
  logs : List LogRecord

/-- The table right after `CREATE TABLE` (src/index.js:34-45): empty, ids
start at 1. -/
def initStore : Store := { nextId := 1, logs := [] }

/-- The `INSERT INTO logs(...)` statement (the shared insert of the middleware, the
client-log endpoint and the WS handler): appends one row with the next
AUTOINCREMENT id. SQLite serializes writes, so concurrent appends are a
sequence of these steps in acceptance order. -/
def Store.append (s : Store) (p : PendingRecord) : Store :=
  { nextId := s.nextId + 1,
    logs := s.logs ++ [⟨s.nextId, p.method, p.url, p.headers, p.body, p.timestamp⟩] }

/-- The `DELETE FROM logs` statement (src/index.js:1156): removes every row; the
AUTOINCREMENT counter survives. -/
def Store.purge (s : Store) : Store :=
  { nextId := s.nextId, logs := [] }

/-- A sequence of accepted `append` calls applied in order. -/
def appendAll (ps : List PendingRecord) (s : Store) : Store :=
  ps.foldl Store.append s

/-- JS `parseInt(s)` restricted to decimal notation (the only notation the
`limit` query parameter uses): skip leading whitespace, read an optional
sign and then the longest digit prefix; `none` models `NaN` (no digits). -/
def parseIntDigits : List Char → Option Nat → Option Nat
  | [], acc => acc
  | c :: cs, acc =>
      if c.isDigit then
        parseIntDigits cs (some ((acc.getD 0) * 10 + (c.toNat - '0'.toNat)))
      else acc

/-- The sign-and-digits part of `parseInt`. -/
def parseIntSigned : List Char → Option Int
  | [] => none
  | c :: cs =>
      if c = '-' then (parseIntDigits cs none).map (fun n => -(n : Int))
      else if c = '+' then (parseIntDigits cs none).map (fun n => (n : Int))
      else (parseIntDigits (c :: cs) none).map (fun n => (n : Int))

/-- JS `parseInt` on the raw query-string value. -/
def parseIntJS (s : String) : Option Int :=
  parseIntSigned (s.data.dropWhile (fun c => c = ' '))

/-- The `ORDER BY timestamp DESC` comparator: `a` precedes `b` when `a`'s
timestamp is the larger string (SQLite compares TEXT bytewise, which on
UTF-8 agrees with Lean's lexicographic `String` order). -/
def tsDesc (a b : LogRecord) : Prop := b.timestamp ≤ a.timestamp

instance : DecidableRel tsDesc := fun a b =>
  inferInstanceAs (Decidable (b.timestamp ≤ a.timestamp))

instance : IsTotal LogRecord tsDesc :=
  ⟨fun a b => (le_total b.timestamp a.timestamp).imp (fun h => h) (fun h => h)⟩

instance : IsTrans LogRecord tsDesc :=
  ⟨fun _ _ _ hab hbc => le_trans hbc hab⟩

/-- Line `const limit = req.query.limit ? parseInt(req.query.limit) : null`
(src/index.js:1106): `none` is JS `null` or `NaN` (an absent or empty
parameter is falsy and stays `null`; a non-numeric one parses to `NaN`) —
both leave `if (limit)` false, as does a parsed `0`. -/
def effLimit (limitParam : Option String) : Option Int :=
  match limitParam with
  | some q => if q = "" then none else parseIntJS q
  | none => none

/-- Line `const startTime = req.query.startTime` together with the
`if (startTime)` guard (src/index.js:1107,1113): an absent or empty value
adds no WHERE clause. -/
def effStart (startTimeParam : Option String) : Option String :=
  match startTimeParam with
  | some t => if t = "" then none else some t
  | none => none

/-- The rows the built SQL matches: `WHERE timestamp >= ?` when a start
time was added (SQLite compares TEXT bytewise, which on UTF-8 agrees with
Lean's `String` order), all rows otherwise (src/index.js:1109-1116). -/
def matchingLogs (s : Store) (startTime : Option String) : List LogRecord :=
  match startTime with
  | some t => s.logs.filter (fun r => decide (t ≤ r.timestamp))
  | none => s.logs

/-- The `LIMIT ?` clause, added only `if (limit)` (src/index.js:1121-1124): `null`,
`NaN` and `0` add no clause, and SQLite treats a negative LIMIT as
unbounded. -/
def applyLimit (limit : Option Int) (rows : List LogRecord) : List LogRecord :=
  match limit with
  | some n => if n = 0 then rows else if 0 < n then rows.take n.toNat else rows
  | none => rows

/-- Endpoint `GET /api/logs` (src/index.js:1105-1134), the part that builds and runs
the SQL: filter by `startTime` if given, `ORDER BY timestamp DESC`, then
cap by `limit` if one was added. `limitParam`/`startTimeParam` are the raw
query-string values (`none` = absent). -/
def getLogs (s : Store) (limitParam startTimeParam : Option String) : List LogRecord :=
  applyLimit (effLimit limitParam)
    (List.insertionSort tsDesc (matchingLogs s (effStart startTimeParam)))

/-- An HTTP response as the handlers produce it: `res.json(x)` is status 200
with body `x`; `res.status(500).json(x)` is status 500 with body `x`. -/
structure HttpResponse where
  status : Nat
  body : Json

/-- One `logs` row as `res.json` serializes it in the `GET /api/logs`
response: `{id, method, url, headers, body, timestamp}`; a NULL `url`
column becomes JSON `null`. -/
def recordToJson (r : LogRecord) : Json :=
  Json.obj
    [ ("id", Json.num (r.id : Int)),
      ("method", Json.str r.method),
      ("url", (r.url).getD Json.null),
      ("headers", Json.str r.headers),
      ("body", Json.str r.body),
      ("timestamp", Json.str r.timestamp) ]

/-- The full `GET /api/logs` handler (src/index.js:1105-1134) including the
response: on a storage error (`err` in the `db.all` callback) it answers
500 with an error body, otherwise 200 with the JSON array of rows. -/
def getLogsHandler (s : Store) (dbErr : Bool) (limitParam startTimeParam : Option String) :
    HttpResponse :=
  if dbErr then
    ⟨500, Json.obj [("error", Json.str "Failed to fetch logs")]⟩
  else
    ⟨200, Json.arr ((getLogs s limitParam startTimeParam).map recordToJson)⟩

/-- The request body of `POST /api/logs` as the interface documents it:
`\x7btype, message, data?, timestamp?\x7d`. Each field is optional (`none`
models an absent property). -/
structure ClientLogReq where
  type : Option String
  message : Option String
  data : Option Json
  timestamp : Option String

/-- The `\x7bmessage, data, timestamp\x7d` envelope the endpoint serializes
into the row's `body` column: `JSON.stringify` drops the keys whose value
is `undefined`, keeping the remaining keys in this order. -/
def clientLogEnvelope (req : ClientLogReq) : List (String × Json) :=
  (match req.message with | some m => [("message", Json.str m)] | none => []) ++
  (match req.data with | some d => [("data", d)] | none => []) ++
  (match req.timestamp with | some t => [("timestamp", Json.str t)] | none => [])

/-- Endpoint `POST /api/logs` (src/index.js:1137-1152): inserts one row with
`method = CLIENT_LOG`, `url = /api/logs`, empty headers, the serialized
envelope as `body`, and `timestamp || new Date().toISOString()` as the
timestamp column (`now` is the current time; the empty string is falsy in
JS, so it falls back to `now` like an absent timestamp); then answers
`\x7bsuccess: true\x7d` unconditionally — the insert is fire-and-forget. -/
def clientLogHandler (s : Store) (now : String) (req : ClientLogReq) :
    Store × HttpResponse :=
  let logData := Json.render (Json.obj (clientLogEnvelope req))
  let ts :=
    match req.timestamp with
    | some t => if t = "" then now else t
    | none => now
  ( s.append
      { method := "CLIENT_LOG", url := some (Json.str "/api/logs"),
        headers := "\x7b\x7d", body := logData, timestamp := ts },
    ⟨200, Json.obj [("success", Json.bool true)]⟩ )

/-- Endpoint `DELETE /api/logs` (src/index.js:1155-1165): runs `DELETE FROM logs`;
on a storage error (`dbErr`) the table is untouched and the handler answers
500 with `\x7berror: "Failed to clear database"\x7d`; otherwise the table is
emptied and the handler answers `\x7bsuccess: true, message: ...\x7d`. -/
def purgeHandler (s : Store) (dbErr : Bool) : Store × HttpResponse :=
  if dbErr then
    (s, ⟨500, Json.obj [("error", Json.str "Failed to clear database")]⟩)
  else
    (s.purge,
     ⟨200, Json.obj
        [ ("success", Json.bool true),
          ("message", Json.str "Database cleared successfully") ]⟩)

/-- JS rest-destructuring `const \x7b origin, ...data \x7d = v`: `none` models
the TypeError thrown when `v` is `null` (the handler's catch swallows it).
On an object it splits off the `origin` property; on a string or an array
the own enumerable properties are the element indices; on the remaining
primitives there are none. -/
def jsDestructureRest (v : Json) : Option (Option Json × List (String × Json)) :=
  match v with
  | Json.null => none
  | Json.obj fields =>
      some (jsLookup "origin" fields, fields.filter (fun kv => kv.1 ≠ "origin"))
  | Json.str s =>
      some (none, (s.data.enum).map (fun ic => (toString ic.1, Json.str (String.singleton ic.2))))
  | Json.arr xs =>
      some (none, (xs.enum).map (fun ix => (toString ix.1, ix.2)))
  | _ => some (none, [])

/-- The per-message WebSocket handler (src/index.js:1170-1190). The input is
the outcome of `JSON.parse` on the frame: `none` when parsing threw (the
catch logs and ignores it). A parsed `null` throws on `msg.type` and is
likewise swallowed; a non-object has no `type` property; an object is
handled when `type === "fingerprint"`: the `data` property is
rest-destructured around `origin` and one row is inserted with
`method = WS`, `url = origin`, empty headers, the serialized rest as
`body` and the current time `now`. A missing or null `data` makes the
destructuring throw, which the catch swallows — no row. The handler never
closes the socket and never sends a frame back. -/
def wsStep (now : String) (s : Store) (m : Option Json) : Store :=
  match m with
  | none => s
  | some Json.null => s
  | some (Json.obj fields) =>
      match jsLookup "type" fields with
      | some (Json.str t) =>
          if t = "fingerprint" then
            match jsLookup "data" fields with
            | none => s
            | some d =>
                match jsDestructureRest d with
                | none => s
                | some (origin, rest) =>
                    s.append
                      { method := "WS", url := origin, headers := "\x7b\x7d",
                        body := Json.render (Json.obj rest), timestamp := now }
          else s
      | _ => s
  | some _ => s

/-- The state of one WebSocket connection: whether either side has closed
it. The server-side handler registers only a message callback and never
calls `close`. -/
structure WsConn where
  closed : Bool

/-- A connection processing a sequence of inbound frames, each given as the
current time paired with its `JSON.parse` outcome: frames are handled while
the connection is open, and the handler itself never closes it. -/
def wsSession (c : WsConn) (s : Store) : List (String × Option Json) → WsConn × Store
  | [] => (c, s)
  | (now, m) :: rest =>
      if c.closed then (c, s)
      else wsSession c (wsStep now s m) rest

/-- The id column of the table, in insertion order. -/
def idsOf (s : Store) : List Nat := s.logs.map LogRecord.id

lemma idsOf_append (s : Store) (p : PendingRecord) :
    idsOf (s.append p) = idsOf s ++ [s.nextId] := by
  simp [idsOf, Store.append]

lemma nextId_append (s : Store) (p : PendingRecord) :
    (s.append p).nextId = s.nextId + 1 := rfl

lemma idsOf_appendAll (ps : List PendingRecord) (s : Store) :
    idsOf (appendAll ps s) = idsOf s ++ List.range' s.nextId ps.length ∧
      (appendAll ps s).nextId = s.nextId + ps.length := by
  induction ps generalizing s with
  | nil => simp [appendAll]
  | cons p ps ih =>
      have h := ih (s.append p)
      constructor
      · rw [show appendAll (p :: ps) s = appendAll ps (s.append p) from rfl, h.1,
          idsOf_append, nextId_append, List.length_cons, List.range'_succ,
          List.append_assoc]
        rfl
      · rw [show appendAll (p :: ps) s = appendAll ps (s.append p) from rfl, h.2,
          nextId_append, List.length_cons]
        omega

/-- C1: For every sequence of append calls (concurrent calls being
serialized by the store into the order it accepted them, which is the
order of `ps`), the ids assigned by the store are strictly increasing in
acceptance order and pairwise distinct — indeed they are exactly
`nextId, nextId + 1, ...` continuing from the state the sequence started
in, so from the freshly created table they are `1, 2, ..., ps.length`. -/
theorem append_ids_strictly_increasing (ps : List PendingRecord) :
    idsOf (appendAll ps initStore) = List.range' 1 ps.length ∧
      List.Pairwise (fun a b => a < b) (idsOf (appendAll ps initStore)) ∧
      (idsOf (appendAll ps initStore)).Nodup := by
  have h := (idsOf_appendAll ps initStore).1
  have hids : idsOf (appendAll ps initStore) = List.range' 1 ps.length := by
    simpa [idsOf, initStore] using h
  refine ⟨hids, ?_, ?_⟩
  · rw [hids]; exact List.pairwise_lt_range' 1 ps.length
  · rw [hids]; exact List.nodup_range' 1 ps.length

lemma parseIntJS_empty : parseIntJS "" = none := rfl

lemma string_empty_le (s : String) : "" ≤ s := by
  refine le_of_not_lt ?_
  intro h
  exact List.Lex.not_nil_right _ _ (String.lt_iff_toList_lt.mp h)

/-- C2: with a limit parameter that parses to a positive integer `n`, the
query returns at most `n` records and the result is sorted by `timestamp`
descending. -/
theorem query_limit_cap_sorted (s : Store) (st : Option String) (lim : String) (n : Int)
    (hp : parseIntJS lim = some n) (hn : 0 < n) :
    (getLogs s (some lim) st).length ≤ n.toNat ∧
      List.Sorted tsDesc (getLogs s (some lim) st) := by
  have hne : lim ≠ "" := by
    intro h
    rw [h, parseIntJS_empty] at hp
    cases hp
  have hunf : getLogs s (some lim) st
      = (List.insertionSort tsDesc (matchingLogs s (effStart st))).take n.toNat := by
    rw [getLogs]
    have hel : effLimit (some lim) = some n := by simp [effLimit, hne, hp]
    rw [hel]
    simp [applyLimit, hn.ne', hn]
  have hsorted : List.Sorted tsDesc (List.insertionSort tsDesc (matchingLogs s (effStart st))) :=
    List.sorted_insertionSort tsDesc _
  constructor
  · rw [hunf]
    exact List.length_take_le n.toNat _
  · rw [hunf]
    exact List.Pairwise.sublist (List.take_sublist n.toNat _) hsorted

/-- Witness for C2 at the concrete limit parameter `5` on the fresh store. -/
theorem query_limit_cap_sorted_witness :
    parseIntJS "5" = some 5 ∧ (0 : Int) < 5 ∧
      ((getLogs initStore (some "5") none).length ≤ (5 : Int).toNat ∧
        List.Sorted tsDesc (getLogs initStore (some "5") none)) :=
  ⟨rfl, by decide, query_limit_cap_sorted initStore none "5" 5 rfl (by decide)⟩

/-- C3: with a start-time parameter `T` and no limit, the query returns
exactly the rows of the table whose timestamp is lexicographically `≥ T`
(so every row with a smaller timestamp is excluded, and a record not in
the table at query time — e.g. inserted later — is likewise not in the
result, which depends only on the table state passed in). -/
theorem query_startTime_exact (s : Store) (T : String) (r : LogRecord) :
    r ∈ getLogs s none (some T) ↔ r ∈ s.logs ∧ T ≤ r.timestamp := by
  by_cases hT : T = ""
  · subst hT
    simp only [getLogs, effLimit, effStart, if_pos rfl, applyLimit, matchingLogs]
    rw [List.mem_insertionSort]
    exact ⟨fun h => ⟨h, string_empty_le _⟩, fun h => h.1⟩
  · simp only [getLogs, effLimit, effStart, if_neg hT, applyLimit, matchingLogs]
    rw [List.mem_insertionSort, List.mem_filter]
    simp

/-- C4: after a purge, a query with any combination of parameters returns
the empty collection, and the endpoint answers it as a normal 200 JSON
array, not an error. -/
theorem purge_then_query_empty (s : Store) (limitParam startTimeParam : Option String) :
    getLogs s.purge limitParam startTimeParam = [] ∧
      getLogsHandler s.purge false limitParam startTimeParam = ⟨200, Json.arr []⟩ := by
  have hmatch : matchingLogs s.purge (effStart startTimeParam) = [] := by
    cases effStart startTimeParam <;> simp [matchingLogs, Store.purge]
  have hmain : getLogs s.purge limitParam startTimeParam = [] := by
    rw [getLogs, hmatch]
    cases effLimit limitParam with
    | none => simp [applyLimit]
    | some n => simp [applyLimit]
  exact ⟨hmain, by rw [getLogsHandler, if_neg (by simp), hmain]; rfl⟩

/-- C10: a limit parameter that parses to `0`, or one that does not parse
to a number at all, is falsy at the `if (limit)` guard, so no LIMIT clause
is added: the query behaves exactly as with the parameter absent and
returns every matching record. -/
theorem query_limit_zero_no_cap (s : Store) (stp : Option String) (lim : String)
    (h : parseIntJS lim = some 0 ∨ parseIntJS lim = none) :
    getLogs s (some lim) stp = getLogs s none stp ∧
      (getLogs s (some lim) stp).length = (matchingLogs s (effStart stp)).length := by
  have hel : effLimit (some lim) = some 0 ∨ effLimit (some lim) = none := by
    by_cases he : lim = ""
    · right; simp [effLimit, he]
    · rcases h with h | h
      · left; simp [effLimit, he, h]
      · right; simp [effLimit, he, h]
  have hmain : getLogs s (some lim) stp = getLogs s none stp := by
    rw [getLogs, getLogs]
    rcases hel with h0 | h0 <;> rw [h0] <;> simp [applyLimit, effLimit]
  refine ⟨hmain, ?_⟩
  rw [hmain]
  simp [getLogs, effLimit, applyLimit, List.length_insertionSort]

/-- Witness for C10 at the concrete parameter `limit=0` on the fresh
store. -/
theorem query_limit_zero_no_cap_witness :
    (parseIntJS "0" = some 0 ∨ parseIntJS "0" = none) ∧
      (getLogs initStore (some "0") none = getLogs initStore none none ∧
        (getLogs initStore (some "0") none).length
          = (matchingLogs initStore (effStart none)).length) :=
  ⟨Or.inl rfl, query_limit_zero_no_cap initStore none "0" (Or.inl rfl)⟩

lemma jsLookup_remove_self (fields : List (String × Json)) :
    jsLookup "origin" (fields.filter (fun kv => kv.1 ≠ "origin")) = none := by
  rw [jsLookup]
  have h : (fields.filter (fun kv => kv.1 ≠ "origin")).find?
      (fun kv => kv.1 = "origin") = none := by
    rw [List.find?_eq_none]
    intro x hx
    have hmem := (List.mem_filter.mp hx).2
    simp only [decide_not, Bool.not_eq_true', decide_eq_false_iff_not] at hmem
    simpa using hmem
  rw [h]
  rfl

lemma jsLookup_remove_other (fields : List (String × Json)) (k : String)
    (hk : k ≠ "origin") :
    jsLookup k (fields.filter (fun kv => kv.1 ≠ "origin")) = jsLookup k fields := by
  induction fields with
  | nil => rfl
  | cons kv rest ih =>
      rw [List.filter_cons]
      by_cases h : kv.1 = "origin"
      · have hd : decide (kv.1 ≠ "origin") = false := by simp [h]
        rw [hd]
        simp only [Bool.false_eq_true, if_false]
        rw [ih]
        have hne : decide (kv.1 = k) = false := by
          rw [h]
          simp
          exact fun hh => hk hh.symm
        rw [jsLookup, jsLookup]
        simp only [List.find?_cons, hne]
      · have hd : decide (kv.1 ≠ "origin") = true := by simp [h]
        rw [hd]
        simp only [if_true]
        rw [jsLookup, jsLookup] at ih ⊢
        simp only [List.find?_cons]
        cases h2 : decide (kv.1 = k) with
        | true => rfl
        | false => exact ih

lemma wsStep_fingerprint (s : Store) (now : String)
    (msgFields dataFields : List (String × Json))
    (htype : jsLookup "type" msgFields = some (Json.str "fingerprint"))
    (hdata : jsLookup "data" msgFields = some (Json.obj dataFields)) :
    wsStep now s (some (Json.obj msgFields)) =
      s.append
        { method := "WS", url := jsLookup "origin" dataFields, headers := "\x7b\x7d",
          body := Json.render (Json.obj (dataFields.filter (fun kv => kv.1 ≠ "origin"))),
          timestamp := now } := by
  rw [wsStep]
  rw [htype]
  simp only [if_pos rfl]
  rw [hdata]
  rfl

/-- C5: a streaming message that parses as JSON of shape
`\x7btype: "fingerprint", data: \x7borigin, ...rest\x7d\x7d` appends exactly one
record: `method = WS`, `url` = the `origin` value, `body` = the serialized
remaining data fields — whose field list has no `origin` key and agrees
with `data` on every other key — and `timestamp` = the current time. -/
theorem ws_fingerprint_appends_record (s : Store) (now : String)
    (msgFields dataFields : List (String × Json)) (o : Json)
    (htype : jsLookup "type" msgFields = some (Json.str "fingerprint"))
    (hdata : jsLookup "data" msgFields = some (Json.obj dataFields))
    (horigin : jsLookup "origin" dataFields = some o) :
    wsStep now s (some (Json.obj msgFields)) =
      s.append
        { method := "WS", url := some o, headers := "\x7b\x7d",
          body := Json.render (Json.obj (dataFields.filter (fun kv => kv.1 ≠ "origin"))),
          timestamp := now } ∧
    (wsStep now s (some (Json.obj msgFields))).logs.length = s.logs.length + 1 ∧
    jsLookup "origin" (dataFields.filter (fun kv => kv.1 ≠ "origin")) = none ∧
    ∀ k, k ≠ "origin" →
      jsLookup k (dataFields.filter (fun kv => kv.1 ≠ "origin")) = jsLookup k dataFields := by
  have hstep := wsStep_fingerprint s now msgFields dataFields htype hdata
  rw [horigin] at hstep
  refine ⟨hstep, ?_, jsLookup_remove_self dataFields, fun k hk => jsLookup_remove_other dataFields k hk⟩
  rw [hstep]
  simp [Store.append]

/-- Witness for C5: the spec's own example message
`\x7btype:"fingerprint", data:\x7borigin:"/login", userAgent:"UA1"\x7d\x7d`. -/
theorem ws_fingerprint_appends_record_witness :
    jsLookup "type" [("type", Json.str "fingerprint"),
        ("data", Json.obj [("origin", Json.str "/login"), ("userAgent", Json.str "UA1")])]
      = some (Json.str "fingerprint") ∧
    (wsStep "2024-01-01T00:00:00.000Z" initStore
        (some (Json.obj [("type", Json.str "fingerprint"),
          ("data", Json.obj [("origin", Json.str "/login"), ("userAgent", Json.str "UA1")])]))).logs
      = [⟨1, "WS", some (Json.str "/login"), "\x7b\x7d",
          "\x7b\"userAgent\":\"UA1\"\x7d", "2024-01-01T00:00:00.000Z"⟩] := by
  refine ⟨rfl, ?_⟩
  have h := (ws_fingerprint_appends_record initStore "2024-01-01T00:00:00.000Z"
      [("type", Json.str "fingerprint"),
       ("data", Json.obj [("origin", Json.str "/login"), ("userAgent", Json.str "UA1")])]
      [("origin", Json.str "/login"), ("userAgent", Json.str "UA1")]
      (Json.str "/login") rfl rfl rfl).1
  rw [h]
  rfl

/-- C6: a frame that is not valid JSON (the `JSON.parse` outcome is a
caught exception) appends nothing, and the handler — which never calls
`close` — leaves the connection open, so a subsequent valid fingerprint
frame on the same connection is still processed and appended. -/
theorem ws_invalid_json_ignored (s : Store) (now1 now2 : String)
    (msgFields dataFields : List (String × Json))
    (htype : jsLookup "type" msgFields = some (Json.str "fingerprint"))
    (hdata : jsLookup "data" msgFields = some (Json.obj dataFields)) :
    wsStep now1 s none = s ∧
    wsSession ⟨false⟩ s [(now1, none), (now2, some (Json.obj msgFields))] =
      (⟨false⟩,
       s.append
         { method := "WS", url := jsLookup "origin" dataFields, headers := "\x7b\x7d",
           body := Json.render (Json.obj (dataFields.filter (fun kv => kv.1 ≠ "origin"))),
           timestamp := now2 }) := by
  refine ⟨rfl, ?_⟩
  show wsSession ⟨false⟩ (wsStep now1 s none) [(now2, some (Json.obj msgFields))] = _
  show wsSession ⟨false⟩ (wsStep now2 (wsStep now1 s none) (some (Json.obj msgFields))) [] = _
  rw [show wsStep now1 s none = s from rfl,
    wsStep_fingerprint s now2 msgFields dataFields htype hdata]
  rfl

/-- Witness for C6: a malformed frame followed by the spec's example
fingerprint frame, starting from the fresh store. -/
theorem ws_invalid_json_ignored_witness :
    jsLookup "data" [("type", Json.str "fingerprint"), ("data", Json.obj [("origin", Json.str "/login")])]
      = some (Json.obj [("origin", Json.str "/login")]) ∧
    wsStep "t1" initStore none = initStore ∧
    (wsSession ⟨false⟩ initStore
        [("t1", none),
         ("t2", some (Json.obj [("type", Json.str "fingerprint"),
            ("data", Json.obj [("origin", Json.str "/login")])]))]).2.logs.length = 1 := by
  refine ⟨rfl, ?_, ?_⟩
  · exact (ws_invalid_json_ignored initStore "t1" "t2"
      [("type", Json.str "fingerprint"), ("data", Json.obj [("origin", Json.str "/login")])]
      [("origin", Json.str "/login")] rfl rfl).1
  · rw [(ws_invalid_json_ignored initStore "t1" "t2"
      [("type", Json.str "fingerprint"), ("data", Json.obj [("origin", Json.str "/login")])]
      [("origin", Json.str "/login")] rfl rfl).2]
    rfl

/-- Counterexample for C7 as stated: a client-log request whose `timestamp`
field is present but the empty string. The claim says the record's
timestamp equals the request-supplied value whenever present; the code
evaluates `timestamp || new Date().toISOString()`, the empty string is
falsy, and the record gets the current time instead. -/
theorem clientLog_empty_timestamp_cex :
    (clientLogHandler initStore "2024-01-02T00:00:00.000Z"
        ⟨some "warning", some "x", none, some ""⟩).1.logs =
      [⟨1, "CLIENT_LOG", some (Json.str "/api/logs"), "\x7b\x7d",
        "\x7b\"message\":\"x\",\"timestamp\":\"\"\x7d", "2024-01-02T00:00:00.000Z"⟩] ∧
    ("2024-01-02T00:00:00.000Z" : String) ≠ "" :=
  ⟨rfl, by decide⟩

/-- C7 as amended: the client-log endpoint appends one record with
`method = CLIENT_LOG`, `url` = its own path, `body` = the serialized
`\x7bmessage, data, timestamp\x7d` envelope — whose keys carry exactly the
request's values, `data` being absent when omitted — and a record
timestamp equal to the request-supplied timestamp if present and
nonempty, else the current time; and it always answers
`\x7bsuccess: true\x7d` once the insert is dispatched. -/
theorem clientLog_record_and_response (s : Store) (now : String) (req : ClientLogReq) :
    (clientLogHandler s now req).1.logs =
      s.logs ++
        [⟨s.nextId, "CLIENT_LOG", some (Json.str "/api/logs"), "\x7b\x7d",
          Json.render (Json.obj (clientLogEnvelope req)),
          match req.timestamp with
          | some t => if t = "" then now else t
          | none => now⟩] ∧
    jsLookup "message" (clientLogEnvelope req) = req.message.map Json.str ∧
    jsLookup "data" (clientLogEnvelope req) = req.data ∧
    jsLookup "timestamp" (clientLogEnvelope req) = req.timestamp.map Json.str ∧
    (clientLogHandler s now req).2 = ⟨200, Json.obj [("success", Json.bool true)]⟩ := by
  obtain ⟨ty, msg, da, ts⟩ := req
  refine ⟨rfl, ?_, ?_, ?_, rfl⟩ <;>
    cases msg <;> cases da <;> cases ts <;>
      simp [clientLogEnvelope, jsLookup, List.find?]

/-- Counterexample for C8 as stated: on a storage failure the purge
endpoint answers 500 with body `\x7berror: ...\x7d` — there is no `success`
key at all, while the claim promises a `\x7bsuccess: false, error\x7d`
body. -/
theorem purge_failure_shape_cex :
    (purgeHandler initStore true).2.status = 500 ∧
    jsLookup "error" ((purgeHandler initStore true).2.body.fieldsOf)
      = some (Json.str "Failed to clear database") ∧
    jsLookup "success" ((purgeHandler initStore true).2.body.fieldsOf) = none :=
  ⟨rfl, rfl, rfl⟩

/-- C8 as amended: a successful purge empties the table and answers
`\x7bsuccess: true, message\x7d`; a storage failure leaves the table as it
was and answers a 500 server error with body `\x7berror\x7d` (no `success`
key), a response distinct from the success response. -/
theorem purge_responses (s : Store) :
    purgeHandler s false =
      (s.purge,
       ⟨200, Json.obj [("success", Json.bool true),
          ("message", Json.str "Database cleared successfully")]⟩) ∧
    purgeHandler s true =
      (s, ⟨500, Json.obj [("error", Json.str "Failed to clear database")]⟩) ∧
    jsLookup "success" ((purgeHandler s true).2.body.fieldsOf) = none ∧
    (purgeHandler s true).2.status ≠ (purgeHandler s false).2.status := by
  refine ⟨rfl, rfl, rfl, ?_⟩
  intro h
  simp [purgeHandler] at h

/-- C9: payloads with absent optional fields are treated permissively. A
client-log request with no `data` and no `timestamp` still appends exactly
one record — the envelope's `data` key is absent, the record timestamp
defaults to the current time — and the endpoint still answers success. A
fingerprint message whose `data` carries only `origin` (no optional
fields), or even nothing at all, is still accepted and appends one record
(with an empty serialized body, and a NULL url when `origin` too is
absent). -/
theorem permissive_defaults (s : Store) (now : String) (t m : Option String) (o : Json) :
    ((clientLogHandler s now ⟨t, m, none, none⟩).1.logs =
      s.logs ++
        [⟨s.nextId, "CLIENT_LOG", some (Json.str "/api/logs"), "\x7b\x7d",
          Json.render (Json.obj (clientLogEnvelope ⟨t, m, none, none⟩)), now⟩] ∧
     jsLookup "data" (clientLogEnvelope ⟨t, m, none, none⟩) = none ∧
     (clientLogHandler s now ⟨t, m, none, none⟩).2
       = ⟨200, Json.obj [("success", Json.bool true)]⟩) ∧
    wsStep now s (some (Json.obj [("type", Json.str "fingerprint"),
        ("data", Json.obj [("origin", o)])]))
      = s.append
          { method := "WS", url := some o, headers := "\x7b\x7d",
            body := "\x7b\x7d", timestamp := now } ∧
    wsStep now s (some (Json.obj [("type", Json.str "fingerprint"),
        ("data", Json.obj [])]))
      = s.append
          { method := "WS", url := none, headers := "\x7b\x7d",
            body := "\x7b\x7d", timestamp := now } := by
  refine ⟨⟨rfl, ?_, rfl⟩, rfl, rfl⟩
  cases m <;> simp [clientLogEnvelope, jsLookup, List.find?]
